import Mathlib

/-!
Shallow embedding of the InventoryTracker Express application.

Sources embedded here:
* src/models/Item.js — the Item schema (name, category, quantity ≥ 0,
  dateAcquired, user reference).
* src/app.js — the main application: session guard `isAuthenticated`,
  register/login/logout, and the protected inventory routes.
* src/unnamed/part_001 — the second application variant, differing in its
  `isAuthenticated` guard (it also checks that the session user carries an
  `_id`, destroying the session otherwise), in its final 404 handler, and in
  the error message its registration catch branch renders.

Modelling conventions: Mongo ObjectIds become naturals; JS numbers stored in
`quantity` become rationals (form input is a decimal string); dates become
integer timestamps; the mutable database and the per-request session become
an explicit `AppState` threaded through a pure request handler. Mongoose's
behaviour of dropping `undefined` filter fields from queries is modelled by
`ownerMatches` on an `Option Nat` owner id.
-/

/-- An inventory item, following the Mongoose schema in src/models/Item.js:
`name` (string, trimmed), `category` (string), `quantity` (a JS number,
modelled as a rational), `dateAcquired` (a date, modelled as an integer
timestamp) and `user` (the owning user's id, field `owner` here). The Mongo
document `_id` is modelled as a natural `id`. -/
structure Item where
  id : Nat
  name : String
  category : String
  quantity : ℚ
  dateAcquired : Int
  owner : Nat
deriving DecidableEq

/-- The Item collection: the database's list of item documents. -/
abbrev Store := List Item

/-- Value of a list of decimal digit characters read left to right. -/
def digitsVal (cs : List Char) : Nat :=
  cs.foldl (fun a c => 10 * a + (c.toNat - 48)) 0

/-- Every character is a decimal digit. -/
def allDigits (cs : List Char) : Bool :=
  cs.all Char.isDigit

/-- Unsigned part of the JS `Number` coercion on the decimal-literal fragment:
digits with an optional fractional part ("2", "2.", ".5", "2.5"); anything
else (including a bare "." or a stray character) is NaN, i.e. `none`. -/
def jsNumberAux (cs : List Char) : Option ℚ :=
  let intCs := cs.takeWhile (fun c => c != '.')
  let rest := cs.dropWhile (fun c => c != '.')
  match rest with
  | [] =>
    if !intCs.isEmpty && allDigits intCs then some ((digitsVal intCs : ℚ)) else none
  | _ :: fracCs =>
    if (!intCs.isEmpty || !fracCs.isEmpty) && allDigits intCs && allDigits fracCs then
      some ((digitsVal intCs : ℚ) + (digitsVal fracCs : ℚ) / (10 : ℚ) ^ fracCs.length)
    else none

/-- JS `Number(string)` coercion restricted to the fragment the form fields
use: optional sign then a decimal literal. `Number("") = 0`; a string that
does not parse is NaN, modelled as `none`. Exponent, hexadecimal, `Infinity`
and whitespace-padded forms are outside the modelled fragment (they map to
`none`). -/
def jsNumber (s : String) : Option ℚ :=
  match s.data with
  | [] => some 0
  | '-' :: t => (jsNumberAux t).map (fun q => -q)
  | '+' :: t => jsNumberAux t
  | cs => jsNumberAux cs

/-- The expression `Number(quantity) || 0` from src/app.js lines 179 and 218
(and src/unnamed/part_001 lines 164 and 195): an absent field gives
`Number(undefined) = NaN`, and `|| 0` replaces the falsy values NaN and 0
by 0. -/
def numberOr0 (field : Option String) : ℚ :=
  match field with
  | none => 0
  | some s =>
    match jsNumber s with
    | none => 0
    | some q => if q = 0 then 0 else q

/-- The quantity coercion `Math.max(0, Number(quantity) || 0)` used by both
the add handler and the edit handler in both application variants. -/
def clampQuantity (field : Option String) : ℚ :=
  max 0 (numberOr0 field)

/-- Mongoose filter semantics for the `user:` condition: a present id must
match the item's owner; an `undefined` id is dropped from the filter, so
every item matches. -/
def ownerMatches (uid : Option Nat) (x : Item) : Bool :=
  match uid with
  | none => true
  | some o => x.owner == o

/-- The query `Item.findById(id)` from the edit-form route (src/app.js line
195): first document whose `_id` matches, with no owner condition. -/
def findById (s : Store) (i : Nat) : Option Item :=
  s.find? (fun x => x.id == i)

/-- The query `Item.find(\x7b user: uid \x7d)` used by the inventory and stats
routes: all items passing the owner filter, in store order. -/
def findItems (s : Store) (uid : Option Nat) : List Item :=
  s.filter (ownerMatches uid)

/-- The edit-form route's lookup (src/app.js lines 195-199): `findById`
followed by the ownership check
`item.user.toString() !== req.session.user._id`, which redirects unless the
session id is present and equal to the item's owner. -/
def getEdit (s : Store) (uid : Option Nat) (i : Nat) : Option Item :=
  match findById s i with
  | none => none
  | some x => if uid = some x.owner then some x else none

/-- Form fields of the add and edit requests: each may be absent from the
body. `dateAcquired` is modelled as an already-parsed timestamp when
present. -/
structure UpdateFields where
  name : Option String
  category : Option String
  quantity : Option String
  dateAcquired : Option Int
deriving DecidableEq

/-- Effect of the update document of `Item.findOneAndUpdate` (src/app.js
lines 213-222) on a matched item: Mongoose drops `undefined` fields from the
update, so an absent `name`/`category`/`dateAcquired` leaves the stored field
unchanged; `name` passes through the schema's trim setter; `quantity` is
always written because `Math.max(0, Number(quantity) || 0)` is always
defined. `_id` and `user` are not in the update document and never change. -/
def applyUpdate (it : Item) (f : UpdateFields) : Item :=
  { it with
    name := match f.name with
      | none => it.name
      | some s => s.trim,
    category := f.category.getD it.category,
    quantity := clampQuantity f.quantity,
    dateAcquired := f.dateAcquired.getD it.dateAcquired }

/-- The query `Item.findOneAndUpdate(\x7b _id: i, user: uid \x7d, update,
\x7b new: true \x7d)`: rewrite the first document matching both conditions and
return the updated document, or return `none` leaving the store unchanged. -/
def findOneAndUpdate (s : Store) (i : Nat) (uid : Option Nat) (f : UpdateFields) :
    Option Item × Store :=
  match s with
  | [] => (none, [])
  | x :: rest =>
    if x.id == i && ownerMatches uid x then
      (some (applyUpdate x f), applyUpdate x f :: rest)
    else
      let r := findOneAndUpdate rest i uid f
      (r.1, x :: r.2)

/-- The query `Item.deleteOne(\x7b _id: i, user: uid \x7d)` (src/app.js lines
239-242): remove the first document matching both conditions; the first
component is the resulting `deletedCount`. -/
def deleteOne (s : Store) (i : Nat) (uid : Option Nat) : Nat × Store :=
  match s with
  | [] => (0, [])
  | x :: rest =>
    if x.id == i && ownerMatches uid x then
      (1, rest)
    else
      let r := deleteOne rest i uid
      (r.1, x :: r.2)

/-- The minimal user projection stored in the session at login or
registration: `req.session.user = \x7b _id, username \x7d`. The id is an
`Option` because the authorization guard of src/unnamed/part_001 explicitly
handles a session user whose `_id` is missing. -/
structure SessionUser where
  uid : Option Nat
  username : String
deriving DecidableEq

/-- A stored user document (src/unnamed/part_000): username and the
bcrypt-hashed password. -/
structure User where
  uid : Nat
  username : String
  passwordHash : String
deriving DecidableEq

/-- The mutable state a request handler touches: the User collection, the
Item collection, the current request's session user, and fresh-id counters
standing for Mongo's id generation. -/
structure AppState where
  users : List User
  store : Store
  session : Option SessionUser
  nextUid : Nat
  nextItemId : Nat
deriving DecidableEq

/-- The HTTP requests the application routes, with parsed bodies. `unmatched`
is any path no route matches. -/
inductive Req where
  | getHome
  | getRegisterForm
  | postRegister (username password : String)
  | getLoginForm
  | postLogin (username password : String)
  | getLogout
  | getInventory
  | getAddForm
  | postAdd (body : UpdateFields)
  | getEditForm (i : Nat)
  | putEdit (i : Nat) (body : UpdateFields)
  | delItem (i : Nat)
  | getStats
  | unmatched (path : String)
deriving DecidableEq

/-- The observable response of a handler: a redirect, a rendered page
(optionally with a form error message), one of the data-carrying pages, or a
404. `notFoundDefault` is the framework's built-in plain 404 reply
(src/app.js has no 404 route); `notFoundPage` is the rendered 404 view of
src/unnamed/part_001 lines 243-245. -/
inductive Response where
  | redirect (loc : String)
  | page (view : String) (error : Option String)
  | inventoryPage (items : List Item)
  | editPage (it : Item)
  | statsPage (totalItems : Nat) (totalQuantity : ℚ) (categoryCount : List (String × Nat))
  | notFoundDefault
  | notFoundPage
deriving DecidableEq

/-- Outcome of the `isAuthenticated` middleware: proceed to the handler with
the session user, or stop with a redirect to /login leaving the session in
the given state. -/
inductive GuardOutcome where
  | allow (u : SessionUser)
  | deny (newSession : Option SessionUser)
deriving DecidableEq

/-- The guard of src/app.js lines 67-73: proceed whenever a session user is
present (no shape check), otherwise redirect to /login. -/
def guardA (sess : Option SessionUser) : GuardOutcome :=
  match sess with
  | some u => .allow u
  | none => .deny none

/-- The guard of src/unnamed/part_001 lines 71-83: like `guardA`, but a
session user without an `_id` is rejected too, and in that case the session
is first destroyed. -/
def guardB (sess : Option SessionUser) : GuardOutcome :=
  match sess with
  | some u => if u.uid.isSome then .allow u else .deny none
  | none => .deny none

/-- Run a protected handler behind a guard: on denial respond with the
redirect to /login and the session state the guard left behind. -/
def guarded (guard : Option SessionUser → GuardOutcome) (st : AppState)
    (k : SessionUser → Response × AppState) : Response × AppState :=
  match guard st.session with
  | .deny ns => (.redirect "/login", { st with session := ns })
  | .allow u => k u

/-- The POST /register handler (src/app.js lines 92-112, src/unnamed/part_001
lines 99-114): if a user with the posted username exists, re-render the form
with the duplicate-username message and change nothing. Otherwise
`new User(\x7b username, password \x7d).save()` runs: the User schema
(src/unnamed/part_000 line 6) declares `password` required, and Mongoose's
required validator rejects an empty string before the hashing pre-save hook
runs, so an empty password throws — landing in the catch branch, which
re-renders the form with a failure message that differs between the two
variants ("Something went wrong during registration." at src/app.js line 110
versus "Registration failed. Try again." at src/unnamed/part_001 line 112)
and is passed in here as `failMsg`. On success the user is persisted
(password run through the model's bcrypt hook, abstracted as `hf`), logged
in, and redirected home. -/
def registerHandler (failMsg : String) (hf : String → String) (un pw : String)
    (st : AppState) : Response × AppState :=
  match st.users.find? (fun u => u.username == un) with
  | some _ => (.page "register" (some "Username already exists."), st)
  | none =>
    if pw = "" then
      (.page "register" (some failMsg), st)
    else
      (.redirect "/",
       { st with
          users := st.users ++ [{ uid := st.nextUid, username := un, passwordHash := hf pw }],
          session := some { uid := some st.nextUid, username := un },
          nextUid := st.nextUid + 1 })

/-- The POST /login handler (src/app.js lines 123-146): unknown username and
wrong password produce the same generic message; on success the session is
set and the user redirected home. `cmp` abstracts bcrypt.compare. -/
def loginHandler (cmp : String → String → Bool) (un pw : String) (st : AppState) :
    Response × AppState :=
  match st.users.find? (fun u => u.username == un) with
  | none => (.page "login" (some "Invalid username or password."), st)
  | some u =>
    if cmp pw u.passwordHash then
      (.redirect "/", { st with session := some { uid := some u.uid, username := u.username } })
    else
      (.page "login" (some "Invalid username or password."), st)

/-- The schema's handling of the posted `name` on save: required and trimmed,
so an absent name or one that trims to empty fails validation. -/
def trimmedName (s : Option String) : Option String :=
  match s with
  | none => none
  | some s => if s.trim = "" then none else some s.trim

/-- The schema's handling of the posted `category` on save: required, so an
absent or empty category fails validation. -/
def requiredCat (s : Option String) : Option String :=
  match s with
  | none => none
  | some s => if s = "" then none else some s

/-- The item document built by the POST /add handler (src/app.js lines
174-182): clamped quantity, `dateAcquired` defaulting to now, owned by the
session user. -/
def mkNewItem (nid : Nat) (nm ct : String) (b : UpdateFields) (now : Int) (o : Nat) : Item :=
  { id := nid, name := nm, category := ct,
    quantity := clampQuantity b.quantity,
    dateAcquired := b.dateAcquired.getD now,
    owner := o }

/-- The POST /add handler body (src/app.js lines 171-190): a failing schema
validation (missing name/category/user id) is caught and redirects back to
/add; otherwise the new item is saved and the user redirected to the
inventory. -/
def addHandler (now : Int) (b : UpdateFields) (u : SessionUser) (st : AppState) :
    Response × AppState :=
  match trimmedName b.name, requiredCat b.category, u.uid with
  | some nm, some ct, some o =>
    (.redirect "/inventory",
     { st with
        store := st.store ++ [mkNewItem st.nextItemId nm ct b now o],
        nextItemId := st.nextItemId + 1 })
  | _, _, _ => (.redirect "/add", st)

/-- Insert an item into a list kept in descending `dateAcquired` order. -/
def insertByDate (it : Item) : List Item → List Item
  | [] => [it]
  | x :: xs => if x.dateAcquired ≤ it.dateAcquired then it :: x :: xs else x :: insertByDate it xs

/-- The `.sort(\x7b dateAcquired: -1 \x7d)` of the inventory route: most
recently acquired first. -/
def sortByDateDesc (l : List Item) : List Item :=
  l.foldr insertByDate []

/-- The `items.reduce((sum, item) => sum + item.quantity, 0)` of the stats
route (src/app.js line 259). -/
def totalQuantityOf (items : List Item) : ℚ :=
  items.foldl (fun sum it => sum + it.quantity) 0

/-- One step of the stats route's `categoryCount[item.category] =
(categoryCount[item.category] || 0) + 1`: bump the category's entry in the
insertion-ordered object, creating it at 1 if absent. -/
def bumpCategory : List (String × Nat) → String → List (String × Nat)
  | [], c => [(c, 1)]
  | (k, n) :: rest, c => if k = c then (k, n + 1) :: rest else (k, n) :: bumpCategory rest c

/-- The `categoryCount` object built by the stats route's forEach
(src/app.js lines 261-264), as an insertion-ordered association list. -/
def categoryCountOf (items : List Item) : List (String × Nat) :=
  items.foldl (fun cc it => bumpCategory cc it.category) []

/-- Reading a key from the categoryCount object; a missing key reads as 0. -/
def lookupCount : List (String × Nat) → String → Nat
  | [], _ => 0
  | (k, n) :: rest, c => if k = c then n else lookupCount rest c

/-- The route table shared by both application variants (they differ only in
the guard placed before the protected routes, in the unmatched-path
response, and in the registration catch branch's error message, which are
passed in). Each arm models the corresponding route handler of src/app.js /
src/unnamed/part_001. -/
def dispatch (guard : Option SessionUser → GuardOutcome) (notFound : Response)
    (regFail : String)
    (cmp : String → String → Bool) (hf : String → String) (now : Int)
    (req : Req) (st : AppState) : Response × AppState :=
  match req with
  | .getHome => (.page "index" none, st)
  | .getRegisterForm =>
    if st.session.isSome then (.redirect "/", st) else (.page "register" none, st)
  | .postRegister un pw => registerHandler regFail hf un pw st
  | .getLoginForm =>
    if st.session.isSome then (.redirect "/", st) else (.page "login" none, st)
  | .postLogin un pw => loginHandler cmp un pw st
  | .getLogout => (.redirect "/", { st with session := none })
  | .getInventory => guarded guard st (fun u =>
      (.inventoryPage (sortByDateDesc (findItems st.store u.uid)), st))
  | .getAddForm => guarded guard st (fun _ => (.page "add" none, st))
  | .postAdd b => guarded guard st (fun u => addHandler now b u st)
  | .getEditForm i => guarded guard st (fun u =>
      match getEdit st.store u.uid i with
      | some it => (.editPage it, st)
      | none => (.redirect "/inventory", st))
  | .putEdit i b => guarded guard st (fun u =>
      (.redirect "/inventory", { st with store := (findOneAndUpdate st.store i u.uid b).2 }))
  | .delItem i => guarded guard st (fun u =>
      (.redirect "/inventory", { st with store := (deleteOne st.store i u.uid).2 }))
  | .getStats => guarded guard st (fun u =>
      (.statsPage (findItems st.store u.uid).length
        (totalQuantityOf (findItems st.store u.uid))
        (categoryCountOf (findItems st.store u.uid)), st))
  | .unmatched _ => (notFound, st)

/-- The application of src/app.js: permissive guard, framework default 404,
its registration catch message. -/
def handleA (cmp : String → String → Bool) (hf : String → String) (now : Int)
    (req : Req) (st : AppState) : Response × AppState :=
  dispatch guardA .notFoundDefault "Something went wrong during registration."
    cmp hf now req st

/-- The application of src/unnamed/part_001: shape-checking guard, rendered
404 page, its registration catch message. -/
def handleB (cmp : String → String → Bool) (hf : String → String) (now : Int)
    (req : Req) (st : AppState) : Response × AppState :=
  dispatch guardB .notFoundPage "Registration failed. Try again."
    cmp hf now req st

/-- The routes sitting behind the `isAuthenticated` middleware. -/
def isProtected : Req → Bool
  | .getInventory | .getAddForm | .postAdd _ | .getEditForm _
  | .putEdit _ _ | .delItem _ | .getStats => true
  | _ => false

/-- In a store whose document ids are distinct (Mongo guarantees distinct
ids), two members with the same id are the same document. -/
theorem mem_inj_of_nodup_ids {l : List Item} (h : (l.map Item.id).Nodup)
    {x y : Item} (hx : x ∈ l) (hy : y ∈ l) (hxy : x.id = y.id) : x = y := by
  induction l with
  | nil => cases hx
  | cons a t ih =>
    rw [List.map_cons, List.nodup_cons] at h
    rcases List.mem_cons.mp hx with rfl | hx2
    · rcases List.mem_cons.mp hy with rfl | hy2
      · rfl
      · exact absurd (hxy ▸ List.mem_map_of_mem Item.id hy2) h.1
    · rcases List.mem_cons.mp hy with rfl | hy2
      · exact absurd (hxy ▸ List.mem_map_of_mem Item.id hx2) h.1
      · exact ih h.2 hx2 hy2

/-- In a store with distinct ids, findById of a member's id is that member. -/
theorem findById_eq_of_mem {s : Store} {it : Item} (hnd : (s.map Item.id).Nodup)
    (hmem : it ∈ s) : findById s it.id = some it := by
  induction s with
  | nil => cases hmem
  | cons x rest ih =>
    by_cases hx : x.id = it.id
    · have hxit : x = it :=
        mem_inj_of_nodup_ids hnd (List.mem_cons_self x rest) hmem hx
      simp [findById, List.find?_cons, hx]
      exact hxit
    · have hit : it ∈ rest := by
        rcases List.mem_cons.mp hmem with rfl | h2
        · exact absurd rfl hx
        · exact h2
      rw [List.map_cons, List.nodup_cons] at hnd
      have := ih hnd.2 hit
      simpa [findById, List.find?_cons, hx] using this

/-- findById misses when no document carries the id. -/
theorem findById_eq_none {s : Store} {i : Nat} (h : ∀ x ∈ s, x.id ≠ i) :
    findById s i = none := by
  simp only [findById, List.find?_eq_none]
  intro x hx
  simpa using h x hx

/-- The pair condition of the delete and update queries, as a proposition. -/
theorem matchCond_iff {x : Item} {i o : Nat} :
    (x.id == i && ownerMatches (some o) x) = true ↔ x.id = i ∧ x.owner = o := by
  simp [ownerMatches]

/-- deleteOne with a pair no document matches removes nothing. -/
theorem deleteOne_no_match {s : Store} {i o : Nat}
    (h : ∀ x ∈ s, ¬(x.id = i ∧ x.owner = o)) : deleteOne s i (some o) = (0, s) := by
  induction s with
  | nil => rfl
  | cons x rest ih =>
    have hx : ¬(x.id = i ∧ x.owner = o) := h x (List.mem_cons_self x rest)
    have hrest := ih (fun y hy => h y (List.mem_cons_of_mem x hy))
    simp only [deleteOne]
    rw [if_neg (fun hc => hx (matchCond_iff.mp hc))]
    simp [hrest]

/-- On a store with distinct ids containing a document with the pair,
deleteOne reports one deletion and the residual store has no document with
that id. -/
theorem deleteOne_of_mem {s : Store} {it : Item} {i o : Nat}
    (hnd : (s.map Item.id).Nodup) (hmem : it ∈ s) (hid : it.id = i) (how : it.owner = o) :
    (deleteOne s i (some o)).1 = 1 ∧ ∀ x ∈ (deleteOne s i (some o)).2, x.id ≠ i := by
  induction s with
  | nil => cases hmem
  | cons x rest ih =>
    rw [List.map_cons, List.nodup_cons] at hnd
    by_cases hc : (x.id == i && ownerMatches (some o) x) = true
    · have hxid : x.id = i := (matchCond_iff.mp hc).1
      have hD : deleteOne (x :: rest) i (some o) = (1, rest) := by
        simp only [deleteOne, if_pos hc]
      rw [hD]
      refine ⟨rfl, fun y hy hyid => ?_⟩
      exact hnd.1 (by rw [hxid, ← hyid]; exact List.mem_map_of_mem Item.id hy)
    · have hit : it ∈ rest := by
        rcases List.mem_cons.mp hmem with rfl | h2
        · exact absurd (matchCond_iff.mpr ⟨hid, how⟩) hc
        · exact h2
      have hxid : x.id ≠ i := by
        intro hxi
        exact hnd.1 (by rw [hxi, ← hid]; exact List.mem_map_of_mem Item.id hit)
      have hr := ih hnd.2 hit
      have hD : deleteOne (x :: rest) i (some o)
          = ((deleteOne rest i (some o)).1, x :: (deleteOne rest i (some o)).2) := by
        simp only [deleteOne, if_neg hc]
      rw [hD]
      refine ⟨hr.1, fun y hy => ?_⟩
      rcases List.mem_cons.mp hy with rfl | h2
      · exact hxid
      · exact hr.2 y h2

/-- deleteOne reports a deletion exactly when some document matches both the
id and the owner. -/
theorem deleteOne_count_iff (s : Store) (i o : Nat) :
    (deleteOne s i (some o)).1 = 1 ↔ ∃ x ∈ s, x.id = i ∧ x.owner = o := by
  induction s with
  | nil => simp [deleteOne]
  | cons x rest ih =>
    by_cases hc : (x.id == i && ownerMatches (some o) x) = true
    · have hD : deleteOne (x :: rest) i (some o) = (1, rest) := by
        simp only [deleteOne, if_pos hc]
      rw [hD]
      exact iff_of_true rfl ⟨x, List.mem_cons_self x rest, matchCond_iff.mp hc⟩
    · have hx : ¬(x.id = i ∧ x.owner = o) := fun h => hc (matchCond_iff.mpr h)
      have hD : deleteOne (x :: rest) i (some o)
          = ((deleteOne rest i (some o)).1, x :: (deleteOne rest i (some o)).2) := by
        simp only [deleteOne, if_neg hc]
      rw [hD]
      show (deleteOne rest i (some o)).1 = 1 ↔ _
      rw [ih]
      constructor
      · rintro ⟨y, hy, hmy⟩
        exact ⟨y, List.mem_cons_of_mem x hy, hmy⟩
      · rintro ⟨y, hy, hmy⟩
        rcases List.mem_cons.mp hy with rfl | h2
        · exact absurd hmy hx
        · exact ⟨y, h2, hmy⟩

/-- Documents not matching the pair survive deleteOne. -/
theorem deleteOne_frame {s : Store} {i o : Nat} :
    ∀ x ∈ s, ¬(x.id = i ∧ x.owner = o) → x ∈ (deleteOne s i (some o)).2 := by
  induction s with
  | nil => intro x hx; cases hx
  | cons y rest ih =>
    intro x hx hnm
    by_cases hc : (y.id == i && ownerMatches (some o) y) = true
    · simp only [deleteOne, if_pos hc]
      rcases List.mem_cons.mp hx with rfl | h2
      · exact absurd (matchCond_iff.mp hc) hnm
      · exact h2
    · simp only [deleteOne, if_neg hc]
      rcases List.mem_cons.mp hx with rfl | h2
      · exact List.mem_cons_self x _
      · exact List.mem_cons_of_mem y (ih x h2 hnm)

/-- findOneAndUpdate with a pair no document matches returns none and leaves
the store untouched. -/
theorem fou_no_match {s : Store} {i o : Nat} {f : UpdateFields}
    (h : ∀ x ∈ s, ¬(x.id = i ∧ x.owner = o)) :
    findOneAndUpdate s i (some o) f = (none, s) := by
  induction s with
  | nil => rfl
  | cons x rest ih =>
    have hx : ¬(x.id = i ∧ x.owner = o) := h x (List.mem_cons_self x rest)
    have hrest := ih (fun y hy => h y (List.mem_cons_of_mem x hy))
    simp only [findOneAndUpdate]
    rw [if_neg (fun hc => hx (matchCond_iff.mp hc))]
    simp [hrest]

/-- On a store with distinct ids containing a document with the pair,
findOneAndUpdate returns that document updated, keeps every document with a
different id, and preserves the store's length. -/
theorem fou_of_mem {s : Store} {it : Item} {i o : Nat} {f : UpdateFields}
    (hnd : (s.map Item.id).Nodup) (hmem : it ∈ s) (hid : it.id = i) (how : it.owner = o) :
    (findOneAndUpdate s i (some o) f).1 = some (applyUpdate it f)
    ∧ (∀ x ∈ s, x.id ≠ i → x ∈ (findOneAndUpdate s i (some o) f).2)
    ∧ (findOneAndUpdate s i (some o) f).2.length = s.length := by
  induction s with
  | nil => cases hmem
  | cons x rest ih =>
    rw [List.map_cons, List.nodup_cons] at hnd
    by_cases hc : (x.id == i && ownerMatches (some o) x) = true
    · have hxit : x = it := by
        apply mem_inj_of_nodup_ids (l := x :: rest)
        · rw [List.map_cons, List.nodup_cons]; exact hnd
        · exact List.mem_cons_self x rest
        · exact hmem
        · rw [(matchCond_iff.mp hc).1, hid]
      subst hxit
      have hD : findOneAndUpdate (x :: rest) i (some o) f
          = (some (applyUpdate x f), applyUpdate x f :: rest) := by
        simp only [findOneAndUpdate, if_pos hc]
      rw [hD]
      refine ⟨rfl, fun y hy hyid => ?_, by simp⟩
      rcases List.mem_cons.mp hy with rfl | h2
      · exact absurd hid hyid
      · exact List.mem_cons_of_mem _ h2
    · have hit : it ∈ rest := by
        rcases List.mem_cons.mp hmem with rfl | h2
        · exact absurd (matchCond_iff.mpr ⟨hid, how⟩) hc
        · exact h2
      have hr := ih hnd.2 hit
      have hD : findOneAndUpdate (x :: rest) i (some o) f
          = ((findOneAndUpdate rest i (some o) f).1,
             x :: (findOneAndUpdate rest i (some o) f).2) := by
        simp only [findOneAndUpdate, if_neg hc]
      rw [hD]
      refine ⟨hr.1, fun y hy hyid => ?_, by simpa using hr.2.2⟩
      rcases List.mem_cons.mp hy with rfl | h2
      · exact List.mem_cons_self y _
      · exact List.mem_cons_of_mem x (hr.2.1 y h2 hyid)

/-- A document returned by findOneAndUpdate carries the requested id and the
requesting owner: the query filtered by the pair. -/
theorem fou_some_owner {s : Store} {i o : Nat} {f : UpdateFields} {r : Item}
    (h : (findOneAndUpdate s i (some o) f).1 = some r) : r.id = i ∧ r.owner = o := by
  induction s with
  | nil => simp [findOneAndUpdate] at h
  | cons x rest ih =>
    by_cases hc : (x.id == i && ownerMatches (some o) x) = true
    · simp only [findOneAndUpdate, if_pos hc] at h
      have hm := matchCond_iff.mp hc
      cases h
      exact hm
    · simp only [findOneAndUpdate, if_neg hc] at h
      exact ih h

/-- A document returned by the edit-form lookup carries the requested id,
and the session id equals its owner. -/
theorem getEdit_some {s : Store} {uid : Option Nat} {i : Nat} {r : Item}
    (h : getEdit s uid i = some r) : r.id = i ∧ uid = some r.owner := by
  cases hfb : findById s i with
  | none => simp [getEdit, hfb] at h
  | some x =>
    simp only [getEdit, hfb] at h
    have hx : x.id = i := by
      have := List.find?_some hfb
      simpa using this
    by_cases ho : uid = some x.owner
    · rw [if_pos ho] at h
      cases h
      exact ⟨hx, ho⟩
    · rw [if_neg ho] at h
      cases h

/-- The edit-form lookup on a member item is hidden from any other session
id. -/
theorem getEdit_none_of_other {s : Store} {it : Item} {b : Nat}
    (hnd : (s.map Item.id).Nodup) (hmem : it ∈ s) (hb : b ≠ it.owner) :
    getEdit s (some b) it.id = none := by
  have := findById_eq_of_mem hnd hmem
  simp [getEdit, this, hb]

/-- The stats reduce computes the sum of the quantities. -/
theorem foldl_add_quantity (l : List Item) (a : ℚ) :
    l.foldl (fun sum it => sum + it.quantity) a = a + (l.map Item.quantity).sum := by
  induction l generalizing a with
  | nil => simp
  | cons x xs ih => simp [ih, add_assoc]

/-- Reading the object after one bump: the bumped key goes up by one, other
keys are unaffected. -/
theorem lookupCount_bump (cc : List (String × Nat)) (c c2 : String) :
    lookupCount (bumpCategory cc c) c2
      = lookupCount cc c2 + if c = c2 then 1 else 0 := by
  induction cc with
  | nil =>
    simp only [bumpCategory, lookupCount]
    split_ifs <;> simp_all [lookupCount]
  | cons p rest ih =>
    obtain ⟨k, n⟩ := p
    by_cases hk : k = c
    · subst hk
      simp only [bumpCategory, if_pos rfl, lookupCount]
      split_ifs <;> simp_all
    · simp only [bumpCategory, if_neg hk, lookupCount]
      by_cases hk2 : k = c2
      · subst hk2
        have hc2 : ¬(c = k) := fun h => hk h.symm
        simp [hc2]
      · simp [hk2, ih]

/-- Reading the object built by the stats forEach, started from any prefix
object: each key counts the items of that category. -/
theorem lookupCount_foldl (items : List Item) (cc : List (String × Nat)) (c : String) :
    lookupCount (items.foldl (fun cc it => bumpCategory cc it.category) cc) c
      = lookupCount cc c + items.countP (fun it => it.category == c) := by
  induction items generalizing cc with
  | nil => simp
  | cons x xs ih =>
    simp only [List.foldl_cons, List.countP_cons, ih, lookupCount_bump]
    by_cases hx : x.category = c
    · simp only [hx, if_pos rfl, beq_self_eq_true, if_true]
      omega
    · have hb : (x.category == c) = false := by simpa using hx
      simp only [if_neg hx, hb, Bool.false_eq_true, if_false]
      omega

/-- Reading the stats route's categoryCount object: each category's entry is
the number of the listed items in that category. -/
theorem lookupCount_categoryCountOf (items : List Item) (c : String) :
    lookupCount (categoryCountOf items) c = items.countP (fun it => it.category == c) := by
  simpa [categoryCountOf, lookupCount] using lookupCount_foldl items [] c

/-- Evaluation of the modelled coercion on the literal "-5". -/
theorem jsNumber_neg5 : jsNumber "-5" = some (-5) := by
  simp [jsNumber, jsNumberAux, digitsVal, allDigits, List.takeWhile, List.dropWhile]

/-- Evaluation of the modelled coercion on the literal "abc". -/
theorem jsNumber_abc : jsNumber "abc" = none := by
  simp [jsNumber, jsNumberAux, digitsVal, allDigits, List.takeWhile, List.dropWhile]

/-- Evaluation of the modelled coercion on the literal "2.5". -/
theorem jsNumber_two_point_five : jsNumber "2.5" = some (5 / 2) := by
  simp [jsNumber, jsNumberAux, digitsVal, allDigits, List.takeWhile, List.dropWhile]
  norm_num

/-- C3 (amended): a quantity input coercing to NaN, to a non-positive
number, or omitted altogether is stored as 0 by both the add and the edit
path, and every stored quantity is non-negative; the add and edit handlers
store exactly the clamped value. (The original claim's "every stored
quantity is an integer" fails: a fractional numeric input is stored as is,
see the counterexample.) -/
theorem quantity_clamp_rules :
    (∀ s, jsNumber s = none → clampQuantity (some s) = 0)
    ∧ (∀ s q, jsNumber s = some q → q ≤ 0 → clampQuantity (some s) = 0)
    ∧ clampQuantity none = 0
    ∧ clampQuantity (some "-5") = 0
    ∧ clampQuantity (some "abc") = 0
    ∧ (∀ f, 0 ≤ clampQuantity f)
    ∧ (∀ nid nm ct b now o, (mkNewItem nid nm ct b now o).quantity = clampQuantity b.quantity)
    ∧ (∀ it b, (applyUpdate it b).quantity = clampQuantity b.quantity) := by
  have h1 : ∀ s, jsNumber s = none → clampQuantity (some s) = 0 := by
    intro s h
    simp [clampQuantity, numberOr0, h]
  have h2 : ∀ s q, jsNumber s = some q → q ≤ 0 → clampQuantity (some s) = 0 := by
    intro s q h hq
    simp only [clampQuantity, numberOr0, h]
    split_ifs with h0
    · exact max_self 0
    · exact max_eq_left hq
  refine ⟨h1, h2, by simp [clampQuantity, numberOr0], ?_, ?_, ?_, ?_, ?_⟩
  · exact h2 "-5" (-5) jsNumber_neg5 (by norm_num)
  · exact h1 "abc" jsNumber_abc
  · intro f
    exact le_max_left 0 (numberOr0 f)
  · intro nid nm ct b now o
    rfl
  · intro it b
    rfl

/-- C3 witness: the clamp rules applied at the concrete inputs "abc"
(non-numeric) and "-5" (negative). -/
theorem quantity_clamp_rules_witness :
    clampQuantity (some "abc") = 0 ∧ clampQuantity (some "-5") = 0 :=
  ⟨quantity_clamp_rules.1 "abc" jsNumber_abc,
   quantity_clamp_rules.2.1 "-5" (-5) jsNumber_neg5 (by norm_num)⟩

/-- C3 counterexample: the quantity input "2.5" coerces to the number 5/2,
which `Math.max(0, Number(quantity) || 0)` stores unchanged — a stored
quantity whose denominator is 2, hence not an integer, contradicting the
claim that every stored quantity is an integer. -/
theorem quantity_fractional_cex :
    clampQuantity (some "2.5") = 5 / 2 ∧ (clampQuantity (some "2.5")).den = 2 := by
  have h : clampQuantity (some "2.5") = 5 / 2 := by
    simp only [clampQuantity, numberOr0, jsNumber_two_point_five]
    norm_num
  exact ⟨h, by rw [h]; norm_num⟩

/-- C1: for an item of some owner and any distinct session user id b, the
edit-form lookup, the update query and the delete query all miss — returning
none / zero deletions and leaving the store untouched — exactly as they do
for an id no document carries, and the full request/response behaviour of the
corresponding routes is identical for the foreign item id and for the
nonexistent id. -/
theorem cross_user_hiding (cmp : String → String → Bool) (hf : String → String) (now : Int)
    (st : AppState) (itA : Item) (b fresh : Nat) (un : String) (f : UpdateFields)
    (hnd : (st.store.map Item.id).Nodup)
    (hmem : itA ∈ st.store) (hb : b ≠ itA.owner)
    (hfresh : ∀ x ∈ st.store, x.id ≠ fresh)
    (hsess : st.session = some ⟨some b, un⟩) :
    getEdit st.store (some b) itA.id = none
    ∧ getEdit st.store (some b) fresh = none
    ∧ findOneAndUpdate st.store itA.id (some b) f = (none, st.store)
    ∧ findOneAndUpdate st.store fresh (some b) f = (none, st.store)
    ∧ deleteOne st.store itA.id (some b) = (0, st.store)
    ∧ deleteOne st.store fresh (some b) = (0, st.store)
    ∧ handleA cmp hf now (.getEditForm itA.id) st = handleA cmp hf now (.getEditForm fresh) st
    ∧ handleA cmp hf now (.putEdit itA.id f) st = handleA cmp hf now (.putEdit fresh f) st
    ∧ handleA cmp hf now (.delItem itA.id) st = handleA cmp hf now (.delItem fresh) st := by
  have hOther : ∀ x ∈ st.store, ¬(x.id = itA.id ∧ x.owner = b) := by
    rintro x hx ⟨h1, h2⟩
    have hxit : x = itA := mem_inj_of_nodup_ids hnd hx hmem h1
    exact hb (by rw [← h2, hxit])
  have hFresh : ∀ x ∈ st.store, ¬(x.id = fresh ∧ x.owner = b) := by
    rintro x hx ⟨h1, _⟩
    exact hfresh x hx h1
  have g1 : getEdit st.store (some b) itA.id = none := getEdit_none_of_other hnd hmem hb
  have g2 : getEdit st.store (some b) fresh = none := by
    simp [getEdit, findById_eq_none hfresh]
  have u1 := fou_no_match (f := f) hOther
  have u2 := fou_no_match (f := f) hFresh
  have d1 := deleteOne_no_match hOther
  have d2 := deleteOne_no_match hFresh
  refine ⟨g1, g2, u1, u2, d1, d2, ?_, ?_, ?_⟩
  · simp [handleA, dispatch, guarded, hsess, guardA, g1, g2]
  · simp [handleA, dispatch, guarded, hsess, guardA, u1, u2]
  · simp [handleA, dispatch, guarded, hsess, guardA, d1, d2]

/-- C1 witness: a store holding one item of user 1, queried by user 2 both
at the item's id 7 and at the unused id 9. -/
theorem cross_user_hiding_witness :
    getEdit [{ id := 7, name := "Hammer", category := "Tools", quantity := 3,
               dateAcquired := 0, owner := 1 }] (some 2) 7 = none
    ∧ deleteOne [{ id := 7, name := "Hammer", category := "Tools", quantity := 3,
                   dateAcquired := 0, owner := 1 }] 7 (some 2)
        = (0, [{ id := 7, name := "Hammer", category := "Tools", quantity := 3,
                 dateAcquired := 0, owner := 1 }]) := by
  have h := cross_user_hiding (fun _ _ => false) (fun s => s) 0
    { users := [],
      store := [{ id := 7, name := "Hammer", category := "Tools", quantity := 3,
                  dateAcquired := 0, owner := 1 }],
      session := some { uid := some 2, username := "bob" },
      nextUid := 0, nextItemId := 8 }
    { id := 7, name := "Hammer", category := "Tools", quantity := 3,
      dateAcquired := 0, owner := 1 }
    2 9 "bob" { name := none, category := none, quantity := none, dateAcquired := none }
    (by simp) (List.mem_singleton.mpr rfl) (by simp)
    (by intro x hx; rcases List.mem_singleton.mp hx with rfl; simp) rfl
  exact ⟨h.1, h.2.2.2.2.1⟩

/-- C2 counterexample: the edit-form route's store lookup is
`Item.findById(req.params.id)` — it filters by the item id alone, taking no
owner condition at all, and here returns an item owned by user 1 even though
the requesting session belongs to a different user: the claimed "never by
the item id alone" fails for the read operation (ownership is only enforced
by a check after the lookup). -/
theorem id_only_read_lookup_cex :
    findById [{ id := 7, name := "Hammer", category := "Tools", quantity := 3,
                dateAcquired := 0, owner := 1 }] 7
      = some { id := 7, name := "Hammer", category := "Tools", quantity := 3,
               dateAcquired := 0, owner := 1 }
    ∧ ({ id := 7, name := "Hammer", category := "Tools", quantity := 3,
         dateAcquired := 0, owner := 1 } : Item).owner ≠ 2 := by
  exact ⟨rfl, by decide⟩

/-- C2 (amended): the update and delete queries do filter by the pair of
item id and owner id together — an updated document always carries the
requested id and the requesting owner, and delete removes only
pair-matching rows — while the edit-form read looks the item up by id alone
and enforces ownership by a post-check, so its end result still only ever
exposes an item owned by the requesting session user. -/
theorem pair_filter_amended (s : Store) (o i : Nat) (f : UpdateFields) :
    (∀ it, getEdit s (some o) i = some it → it.id = i ∧ it.owner = o)
    ∧ (∀ r, (findOneAndUpdate s i (some o) f).1 = some r → r.id = i ∧ r.owner = o)
    ∧ (∀ x ∈ s, ¬(x.id = i ∧ x.owner = o) → x ∈ (deleteOne s i (some o)).2) := by
  refine ⟨?_, ?_, deleteOne_frame⟩
  · intro it h
    have hge := getEdit_some h
    refine ⟨hge.1, ?_⟩
    have := hge.2
    exact (Option.some.injEq o it.owner ▸ this).symm
  · intro r h
    exact fou_some_owner h

/-- C2 witness: the amended pair-filter facts applied on a one-item store,
for requests by the item's owner. -/
theorem pair_filter_amended_witness :
    (({ id := 7, name := "Hammer", category := "Tools", quantity := 3,
        dateAcquired := 0, owner := 1 } : Item).id = 7
      ∧ ({ id := 7, name := "Hammer", category := "Tools", quantity := 3,
           dateAcquired := 0, owner := 1 } : Item).owner = 1) := by
  exact (pair_filter_amended
    [{ id := 7, name := "Hammer", category := "Tools", quantity := 3,
       dateAcquired := 0, owner := 1 }] 1 7
    { name := none, category := none, quantity := none, dateAcquired := none }).1
    { id := 7, name := "Hammer", category := "Tools", quantity := 3,
      dateAcquired := 0, owner := 1 } rfl

/-- C4: over any owner's filtered items, the stats route computes the item
count, the sum of the quantities, and per-category counts; all three results
are invariant under reordering of the store; and with no items the result is
the zero count, zero total and empty category object. -/
theorem stats_correct (s s2 : Store) (o : Nat) (c : String) (hperm : s.Perm s2) :
    (findItems s (some o)).length = s.countP (fun it => it.owner == o)
    ∧ totalQuantityOf (findItems s (some o)) = ((findItems s (some o)).map Item.quantity).sum
    ∧ lookupCount (categoryCountOf (findItems s (some o))) c
        = (findItems s (some o)).countP (fun it => it.category == c)
    ∧ (findItems s (some o)).length = (findItems s2 (some o)).length
    ∧ totalQuantityOf (findItems s (some o)) = totalQuantityOf (findItems s2 (some o))
    ∧ lookupCount (categoryCountOf (findItems s (some o))) c
        = lookupCount (categoryCountOf (findItems s2 (some o))) c
    ∧ (findItems s (some o) = [] →
        (findItems s (some o)).length = 0
        ∧ totalQuantityOf (findItems s (some o)) = 0
        ∧ categoryCountOf (findItems s (some o)) = []) := by
  have hpf : (findItems s (some o)).Perm (findItems s2 (some o)) :=
    hperm.filter (ownerMatches (some o))
  refine ⟨?_, ?_, lookupCount_categoryCountOf _ c, hpf.length_eq, ?_, ?_, ?_⟩
  · simp only [findItems, List.countP_eq_length_filter]
    rfl
  · simp [totalQuantityOf, foldl_add_quantity]
  · simp only [totalQuantityOf, foldl_add_quantity, zero_add]
    exact (hpf.map Item.quantity).sum_eq
  · rw [lookupCount_categoryCountOf, lookupCount_categoryCountOf]
    exact hpf.countP_eq _
  · intro h
    rw [h]
    exact ⟨rfl, rfl, rfl⟩

/-- C4 witness: the stats facts on a two-item store of user 1, with the
reversed store as the permutation; the total quantity is order independent. -/
theorem stats_correct_witness :
    totalQuantityOf (findItems
        [{ id := 1, name := "Hammer", category := "Tools", quantity := 3,
           dateAcquired := 5, owner := 1 },
         { id := 2, name := "Nail", category := "Tools", quantity := 100,
           dateAcquired := 9, owner := 1 }] (some 1))
      = totalQuantityOf (findItems
        [{ id := 2, name := "Nail", category := "Tools", quantity := 100,
           dateAcquired := 9, owner := 1 },
         { id := 1, name := "Hammer", category := "Tools", quantity := 3,
           dateAcquired := 5, owner := 1 }] (some 1)) := by
  exact (stats_correct _ _ 1 "Tools"
    (List.Perm.swap
      { id := 2, name := "Nail", category := "Tools", quantity := 100,
        dateAcquired := 9, owner := 1 }
      { id := 1, name := "Hammer", category := "Tools", quantity := 3,
        dateAcquired := 5, owner := 1 } [])).2.2.2.2.1

/-- C5: deleteOne reports a deletion exactly when a row matching both the
item id and the owner id existed, and on a store with distinct ids holding
such a row, deleting twice with the same pair succeeds the first time,
fails the second time, and the second call leaves the store unchanged. -/
theorem delete_semantics (s : Store) (i o : Nat) (it : Item)
    (hnd : (s.map Item.id).Nodup) (hmem : it ∈ s) (hid : it.id = i) (how : it.owner = o) :
    (deleteOne s i (some o)).1 = 1
    ∧ deleteOne (deleteOne s i (some o)).2 i (some o) = (0, (deleteOne s i (some o)).2)
    ∧ (∀ (s2 : Store) (i2 o2 : Nat),
        ((deleteOne s2 i2 (some o2)).1 = 1 ↔ ∃ x ∈ s2, x.id = i2 ∧ x.owner = o2)) := by
  have h := deleteOne_of_mem hnd hmem hid how
  refine ⟨h.1, ?_, fun s2 i2 o2 => deleteOne_count_iff s2 i2 o2⟩
  exact deleteOne_no_match (fun x hx hm => h.2 x hx hm.1)

/-- C5 witness: deleting item 7 of user 1 from a one-item store succeeds,
and repeating the delete reports nothing removed and changes nothing. -/
theorem delete_semantics_witness :
    (deleteOne [{ id := 7, name := "Hammer", category := "Tools", quantity := 3,
                  dateAcquired := 0, owner := 1 }] 7 (some 1)).1 = 1
    ∧ deleteOne (deleteOne [{ id := 7, name := "Hammer", category := "Tools", quantity := 3,
                              dateAcquired := 0, owner := 1 }] 7 (some 1)).2 7 (some 1)
        = (0, (deleteOne [{ id := 7, name := "Hammer", category := "Tools", quantity := 3,
                            dateAcquired := 0, owner := 1 }] 7 (some 1)).2) := by
  have h := delete_semantics
    [{ id := 7, name := "Hammer", category := "Tools", quantity := 3,
       dateAcquired := 0, owner := 1 }] 7 1
    { id := 7, name := "Hammer", category := "Tools", quantity := 3,
      dateAcquired := 0, owner := 1 }
    (by simp) (List.mem_singleton.mpr rfl) rfl rfl
  exact ⟨h.1, h.2.1⟩

/-- C6: a request to any protected route with no session user is answered by
a redirect to /login with the whole state — in particular the item store —
untouched. -/
theorem unauthenticated_redirect (cmp : String → String → Bool) (hf : String → String)
    (now : Int) (req : Req) (st : AppState)
    (hsess : st.session = none) (hprot : isProtected req = true) :
    handleA cmp hf now req st = (.redirect "/login", st) := by
  obtain ⟨us, so, se, nu, ni⟩ := st
  simp only at hsess
  subst hsess
  cases req <;> simp_all [handleA, dispatch, guarded, guardA, isProtected]

/-- C6 witness: an unauthenticated GET /inventory on a one-item store
redirects to /login and leaves the state unchanged. -/
theorem unauthenticated_redirect_witness :
    handleA (fun _ _ => false) (fun s => s) 0 .getInventory
      { users := [],
        store := [{ id := 7, name := "Hammer", category := "Tools", quantity := 3,
                    dateAcquired := 0, owner := 1 }],
        session := none, nextUid := 0, nextItemId := 8 }
      = (.redirect "/login",
         { users := [],
           store := [{ id := 7, name := "Hammer", category := "Tools", quantity := 3,
                       dateAcquired := 0, owner := 1 }],
           session := none, nextUid := 0, nextItemId := 8 }) := by
  exact unauthenticated_redirect (fun _ _ => false) (fun s => s) 0 .getInventory _ rfl rfl

/-- C7: registering with a username an existing user already holds
re-renders the register form with the duplicate-username message and leaves
the state — in particular the user collection and the session — unchanged:
no new user record is created. -/
theorem duplicate_username_register (cmp : String → String → Bool) (hf : String → String)
    (now : Int) (st : AppState) (un pw : String)
    (hdup : ∃ u ∈ st.users, u.username = un) :
    handleA cmp hf now (.postRegister un pw) st
      = (.page "register" (some "Username already exists."), st) := by
  obtain ⟨u, hu, hname⟩ := hdup
  have hfound : ∃ v, st.users.find? (fun v => v.username == un) = some v := by
    cases hfind : st.users.find? (fun v => v.username == un) with
    | some v => exact ⟨v, rfl⟩
    | none =>
      have := List.find?_eq_none.mp hfind u hu
      simp [hname] at this
  obtain ⟨v, hv⟩ := hfound
  simp [handleA, dispatch, registerHandler, hv]

/-- C7 witness: registering "alice" again against a store already holding a
user "alice" re-renders the form and changes nothing. -/
theorem duplicate_username_register_witness :
    handleA (fun _ _ => false) (fun s => s) 0 (.postRegister "alice" "pw2")
      { users := [{ uid := 0, username := "alice", passwordHash := "h1" }],
        store := [], session := none, nextUid := 1, nextItemId := 0 }
      = (.page "register" (some "Username already exists."),
         { users := [{ uid := 0, username := "alice", passwordHash := "h1" }],
           store := [], session := none, nextUid := 1, nextItemId := 0 }) := by
  exact duplicate_username_register (fun _ _ => false) (fun s => s) 0 _ "alice" "pw2"
    ⟨{ uid := 0, username := "alice", passwordHash := "h1" },
     List.mem_singleton.mpr rfl, rfl⟩

/-- C8 counterexample: an update request that does not supply the quantity
field still changes the stored quantity — `Math.max(0, Number(undefined) ||
0)` writes 0 over the previous value 3 — so "every field not supplied is
unchanged" fails for quantity. -/
theorem update_unsupplied_quantity_cex :
    (findOneAndUpdate
        [{ id := 7, name := "Hammer", category := "Tools", quantity := 3,
           dateAcquired := 0, owner := 1 }] 7 (some 1)
        { name := none, category := none, quantity := none, dateAcquired := none }).1
      = some { id := 7, name := "Hammer", category := "Tools", quantity := 0,
               dateAcquired := 0, owner := 1 }
    ∧ (0 : ℚ) ≠ 3 := by
  constructor
  · simp [findOneAndUpdate, ownerMatches, applyUpdate, clampQuantity, numberOr0]
  · norm_num

/-- C8 (amended): a successful update rewrites exactly the matched document:
the returned document is the stored one with the supplied fields applied,
its id and owner reference are unchanged, an unsupplied name, category or
date is unchanged, quantity is always rewritten to the clamp of its input
(0 when omitted), and every document with a different id — all other users'
items and the owner's other items — survives unchanged, the store keeping
its length. -/
theorem update_frame (s : Store) (i o : Nat) (it : Item) (f : UpdateFields)
    (hnd : (s.map Item.id).Nodup) (hmem : it ∈ s) (hid : it.id = i) (how : it.owner = o) :
    (findOneAndUpdate s i (some o) f).1 = some (applyUpdate it f)
    ∧ (applyUpdate it f).id = it.id
    ∧ (applyUpdate it f).owner = it.owner
    ∧ (f.name = none → (applyUpdate it f).name = it.name)
    ∧ (f.category = none → (applyUpdate it f).category = it.category)
    ∧ (f.dateAcquired = none → (applyUpdate it f).dateAcquired = it.dateAcquired)
    ∧ (applyUpdate it f).quantity = clampQuantity f.quantity
    ∧ (∀ x ∈ s, x.id ≠ i → x ∈ (findOneAndUpdate s i (some o) f).2)
    ∧ (findOneAndUpdate s i (some o) f).2.length = s.length := by
  have h := fou_of_mem (f := f) hnd hmem hid how
  refine ⟨h.1, rfl, rfl, ?_, ?_, ?_, rfl, h.2.1, h.2.2⟩
  · intro hn
    simp [applyUpdate, hn]
  · intro hn
    simp [applyUpdate, hn]
  · intro hn
    simp [applyUpdate, hn]

/-- C8 witness: updating item 7 of user 1 with only a new name supplied
returns the updated document, keeps the owner reference, and keeps the
unsupplied category. -/
theorem update_frame_witness :
    (findOneAndUpdate
        [{ id := 7, name := "Hammer", category := "Tools", quantity := 3,
           dateAcquired := 0, owner := 1 }] 7 (some 1)
        { name := some "Axe", category := none, quantity := some "4",
          dateAcquired := none }).1
      = some (applyUpdate
          { id := 7, name := "Hammer", category := "Tools", quantity := 3,
            dateAcquired := 0, owner := 1 }
          { name := some "Axe", category := none, quantity := some "4",
            dateAcquired := none })
    ∧ (applyUpdate
        { id := 7, name := "Hammer", category := "Tools", quantity := 3,
          dateAcquired := 0, owner := 1 }
        { name := some "Axe", category := none, quantity := some "4",
          dateAcquired := none }).owner
      = ({ id := 7, name := "Hammer", category := "Tools", quantity := 3,
           dateAcquired := 0, owner := 1 } : Item).owner
    ∧ (applyUpdate
        { id := 7, name := "Hammer", category := "Tools", quantity := 3,
          dateAcquired := 0, owner := 1 }
        { name := some "Axe", category := none, quantity := some "4",
          dateAcquired := none }).category
      = ({ id := 7, name := "Hammer", category := "Tools", quantity := 3,
           dateAcquired := 0, owner := 1 } : Item).category := by
  have h := update_frame
    [{ id := 7, name := "Hammer", category := "Tools", quantity := 3,
       dateAcquired := 0, owner := 1 }] 7 1
    { id := 7, name := "Hammer", category := "Tools", quantity := 3,
      dateAcquired := 0, owner := 1 }
    { name := some "Axe", category := none, quantity := some "4", dateAcquired := none }
    (by simp) (List.mem_singleton.mpr rfl) rfl rfl
  exact ⟨h.1, h.2.2.1, h.2.2.2.2.1 rfl⟩

/-- C9 counterexample: the guard of src/app.js lets a structurally
incomplete session identity — a session user with no `_id` — straight
through to the handler instead of failing with a redirect to /login, and
does not destroy the session: the handler then runs, so the claim fails for
this variant's guard. -/
theorem incomplete_identity_guard_cex :
    guardA (some { uid := none, username := "alice" })
      = .allow { uid := none, username := "alice" }
    ∧ (handleA (fun _ _ => false) (fun s => s) 0 .getInventory
        { users := [], store := [], session := some { uid := none, username := "alice" },
          nextUid := 0, nextItemId := 0 }).2.session
      = some { uid := none, username := "alice" } := by
  exact ⟨rfl, rfl⟩

/-- C9 (amended): the guard of src/unnamed/part_001 behaves as the claim
states — it denies both a missing session user and a structurally
incomplete one, destroying the session in the incomplete case so the same
token then resolves to no identity, and it admits every complete identity —
whereas the src/app.js guard performs no completeness check (see the
counterexample); on any protected route, that variant answers an incomplete
identity with a redirect to /login and a destroyed session. -/
theorem incomplete_identity_guard (u : SessionUser) (hu : u.uid = none) :
    guardB (some u) = .deny none
    ∧ guardB none = .deny none
    ∧ (∀ v : SessionUser, v.uid.isSome = true → guardB (some v) = .allow v)
    ∧ (∀ (cmp : String → String → Bool) (hf : String → String) (now : Int)
        (req : Req) (st : AppState),
        st.session = some u → isProtected req = true →
        handleB cmp hf now req st = (.redirect "/login", { st with session := none })) := by
  refine ⟨by simp [guardB, hu], rfl, ?_, ?_⟩
  · intro v hv
    simp [guardB, hv]
  · intro cmp hf now req st hsess hprot
    cases req <;> simp_all [handleB, dispatch, guarded, guardB, isProtected, hu]

/-- C9 witness: the part_001 guard at the concrete incomplete identity
(missing user id), and the part_001 application answering GET /inventory
under that identity with a redirect to /login and a destroyed session. -/
theorem incomplete_identity_guard_witness :
    guardB (some { uid := none, username := "alice" }) = .deny none
    ∧ handleB (fun _ _ => false) (fun s => s) 0 .getInventory
        { users := [], store := [], session := some { uid := none, username := "alice" },
          nextUid := 0, nextItemId := 0 }
      = (.redirect "/login",
         { users := [], store := [], session := none, nextUid := 0, nextItemId := 0 }) := by
  have h := incomplete_identity_guard { uid := none, username := "alice" } rfl
  exact ⟨h.1, h.2.2.2 (fun _ _ => false) (fun s => s) 0 .getInventory _ rfl rfl⟩

/-- C10 counterexample: on a request to GET /inventory with a session user
lacking an `_id`, the src/app.js variant serves the inventory page and keeps
the session, while the src/unnamed/part_001 variant redirects to /login and
destroys the session; and on a sessionless POST /register with a fresh
username and an empty password — which fails the User schema's required
validator, reaching the catch branch — the two variants re-render the form
with different error messages. The two variants do not define the same
request-to-response behaviour. -/
theorem variants_diverge_cex :
    (handleA (fun _ _ => false) (fun s => s) 0 .getInventory
        { users := [], store := [], session := some { uid := none, username := "alice" },
          nextUid := 0, nextItemId := 0 }).1
      = .inventoryPage []
    ∧ (handleB (fun _ _ => false) (fun s => s) 0 .getInventory
        { users := [], store := [], session := some { uid := none, username := "alice" },
          nextUid := 0, nextItemId := 0 }).1
      = .redirect "/login"
    ∧ handleA (fun _ _ => false) (fun s => s) 0 .getInventory
        { users := [], store := [], session := some { uid := none, username := "alice" },
          nextUid := 0, nextItemId := 0 }
      ≠ handleB (fun _ _ => false) (fun s => s) 0 .getInventory
        { users := [], store := [], session := some { uid := none, username := "alice" },
          nextUid := 0, nextItemId := 0 }
    ∧ (handleA (fun _ _ => false) (fun s => s) 0 (.postRegister "alice" "")
        { users := [], store := [], session := none, nextUid := 0, nextItemId := 0 }).1
      = .page "register" (some "Something went wrong during registration.")
    ∧ (handleB (fun _ _ => false) (fun s => s) 0 (.postRegister "alice" "")
        { users := [], store := [], session := none, nextUid := 0, nextItemId := 0 }).1
      = .page "register" (some "Registration failed. Try again.")
    ∧ handleA (fun _ _ => false) (fun s => s) 0 (.postRegister "alice" "")
        { users := [], store := [], session := none, nextUid := 0, nextItemId := 0 }
      ≠ handleB (fun _ _ => false) (fun s => s) 0 (.postRegister "alice" "")
        { users := [], store := [], session := none, nextUid := 0, nextItemId := 0 } := by
  refine ⟨rfl, rfl, ?_, rfl, rfl, ?_⟩
  · intro h
    have := congrArg (fun p => p.1) h
    simp only [handleA, handleB, dispatch, guarded, guardA, guardB] at this
    cases this
  · intro h
    have := congrArg (fun p => p.1) h
    simp [handleA, handleB, dispatch, registerHandler] at this

/-- C10 (amended): the two variants agree — same response and same
resulting state — on every matched route whenever the session, if set,
carries a complete identity (a user id) and, on POST /register, the posted
input does not reach the failing save (i.e. the password is non-empty or
the username is already taken); they diverge on requests arriving with a
structurally incomplete session identity, on unmatched paths — where
src/app.js falls through to the framework's default 404 reply while
src/unnamed/part_001 renders its 404 page — and on registrations whose user
creation fails validation, where the two catch branches render different
error messages (see the counterexample). -/
theorem variants_agree (cmp : String → String → Bool) (hf : String → String) (now : Int)
    (req : Req) (st : AppState)
    (hsess : ∀ u, st.session = some u → u.uid.isSome = true)
    (hmatched : ∀ p, req ≠ .unmatched p)
    (hreg : ∀ un pw, req = .postRegister un pw →
        pw ≠ "" ∨ ∃ u ∈ st.users, u.username = un) :
    handleA cmp hf now req st = handleB cmp hf now req st := by
  have hg : guardA st.session = guardB st.session := by
    cases hs : st.session with
    | none => rfl
    | some u =>
      have := hsess u hs
      simp [guardA, guardB, this]
  cases req
  case unmatched p => exact absurd rfl (hmatched p)
  case postRegister un pw =>
    simp only [handleA, handleB, dispatch]
    cases hfind : st.users.find? (fun v => v.username == un) with
    | some v => simp [registerHandler, hfind]
    | none =>
      have hpw : pw ≠ "" := by
        rcases hreg un pw rfl with h | ⟨u, hu, hname⟩
        · exact h
        · exfalso
          have := List.find?_eq_none.mp hfind u hu
          simp [hname] at this
      simp [registerHandler, hfind, hpw]
  all_goals simp [handleA, handleB, dispatch, guarded, hg]

/-- C10 witness: with a complete session identity, both variants give the
same answer to GET /stats on a one-item store. -/
theorem variants_agree_witness :
    handleA (fun _ _ => false) (fun s => s) 0 .getStats
      { users := [],
        store := [{ id := 7, name := "Hammer", category := "Tools", quantity := 3,
                    dateAcquired := 0, owner := 1 }],
        session := some { uid := some 1, username := "alice" },
        nextUid := 0, nextItemId := 8 }
      = handleB (fun _ _ => false) (fun s => s) 0 .getStats
        { users := [],
          store := [{ id := 7, name := "Hammer", category := "Tools", quantity := 3,
                      dateAcquired := 0, owner := 1 }],
          session := some { uid := some 1, username := "alice" },
          nextUid := 0, nextItemId := 8 } := by
  exact variants_agree (fun _ _ => false) (fun s => s) 0 .getStats _
    (by intro u h; cases h; rfl) (by intro p h; cases h) (by intro un pw h; cases h)
